import Mathlib

/-!
Verification of the real-time audio relay and turn-taking core of the
Rabbot telephony bridge (`index.js`) and its entitlement module
(`src/lib/license.mjs`).

The per-connection handler of `index.js` is embedded shallowly: the mutable
per-connection variables become the fields of `ConnState`, each WebSocket
message handler becomes a pure step function from state and event to state
and emitted outputs, and JavaScript numbers are modelled as `Nat`/`Int` for
integral quantities and as exact fractions (`Frac`, pairs of integers with
positive denominator) for the audio-energy arithmetic — the energy
heuristic uses only `+ * / max >` on values derived from small integers,
so exact rational arithmetic mirrors the JS float computation faithfully
at the scale involved.  `Frac.toQ` interprets those fractions in `ℚ` for
the spec-level statements.  JavaScript truthiness tests that the code
performs on numbers and strings (`!x`, `x && y`) are modelled explicitly
by the `jsTruthy*` helpers below.
-/

namespace Rabbot

/-- JS truthiness of a nullable number: `null` and `0` are falsy. -/
def jsTruthyNum : Option Nat → Bool
  | none => false
  | some n => n ≠ 0

/-- JS truthiness of a string: the empty string is falsy. -/
def jsTruthyStr (s : String) : Bool := s ≠ ""

/-- JS truthiness of a nullable string: `null` and `""` are falsy. -/
def jsTruthyStrOpt : Option String → Bool
  | none => false
  | some s => jsTruthyStr s

/-- Ceiling division on naturals, `⌈a / b⌉`; used to state the
spec-side duration and token formulas. -/
def natCeilDiv (a b : Nat) : Nat := (a + b - 1) / b

/-- `Math.ceil(a / b)` for integer `a` and positive integer `b`,
computed with Euclidean integer division: `⌈a / b⌉ = -⌊-a / b⌋`. -/
def intCeilDiv (a b : Int) : Int := -((-a) / b)

/-- An exact rational value `num / den`, kept unnormalized so that all
arithmetic is plain integer arithmetic.  Every value built by this
development has a positive denominator.  JS floats entering the energy
heuristic are modelled by the exact rationals they stand for. -/
structure Frac where
  num : Int
  den : Int
deriving DecidableEq, Repr

/-- The fraction `n / 1`. -/
def Frac.ofInt (n : Int) : Frac := ⟨n, 1⟩

/-- Exact addition. -/
def Frac.add (a b : Frac) : Frac := ⟨a.num * b.den + b.num * a.den, a.den * b.den⟩

/-- Exact subtraction. -/
def Frac.sub (a b : Frac) : Frac := ⟨a.num * b.den - b.num * a.den, a.den * b.den⟩

/-- Exact multiplication. -/
def Frac.mul (a b : Frac) : Frac := ⟨a.num * b.num, a.den * b.den⟩

/-- Strict comparison `a < b`, valid when both denominators are
positive. -/
def Frac.blt (a b : Frac) : Bool := a.num * b.den < b.num * a.den

/-- `Math.max` on exact values: the larger argument. -/
def Frac.maxF (a b : Frac) : Frac := if a.blt b then b else a

/-- `x === 0` on an exact value with nonzero denominator. -/
def Frac.isZero (a : Frac) : Bool := a.num = 0

/-- The rational number an exact fraction denotes. -/
def Frac.toQ (a : Frac) : ℚ := (a.num : ℚ) / (a.den : ℚ)

/-- μ-law decode of one byte to the absolute value of the linear sample,
following `muLawAvgAbs` in `index.js`: `u = (~byte) & 0xff`, sign bit
`0x80`, exponent `(u >> 4) & 7`, mantissa `u & 0xf`,
`magnitude = ((mantissa << 4) + 0x08) << (exponent + 3)`,
`pcm = magnitude - 0x84` negated when the sign bit is set; the caller sums
`|pcm|`, so the sign flip never affects the result. -/
def muLawAbs (b : Nat) : Nat :=
  let u := 255 - b % 256
  let exponent := (u / 16) % 8
  let mantissa := u % 16
  let magnitude := (mantissa * 16 + 8) * 2 ^ (exponent + 3)
  let pcm : Int := (magnitude : Int) - 132
  let signed : Int := if 128 ≤ u then -pcm else pcm
  signed.natAbs

/-- Average absolute decoded amplitude over a prefix of the frame,
mirroring `muLawAvgAbs(buf, limit)`:
`n = min(buf.length, max(1, limit || buf.length))`, then `sum / n`.
On an empty buffer the JS code divides by zero producing `NaN`, which makes
every later `>` comparison false; we return `0`, which compares the same
way against the (nonnegative) energy floor. -/
def muLawAvgAbs (buf : List Nat) (limit : Nat) : Frac :=
  let lim := if limit = 0 then buf.length else limit
  let n := min buf.length (max 1 lim)
  if n = 0 then ⟨0, 1⟩
  else ⟨(((buf.take n).map muLawAbs).sum : Int), (n : Int)⟩

/-- Exponential moving average step, mirroring
`ema = (prev, v, a) => (prev === 0 ? v : (prev * (1 - a) + v * a))`. -/
def emaStep (prev v a : Frac) : Frac :=
  if prev.isZero then v
  else ((prev.mul ((Frac.ofInt 1).sub a)).add (v.mul a))

/-! ## Tool-call dispatcher (`handleFunctionCall`) -/

/-- Arguments object of a tool call; either field may be absent. -/
structure ToolArgs where
  label : Option String
  mode : Option String
deriving DecidableEq, Repr

/-- The result objects built by `handleFunctionCall`. -/
inductive ToolResult
  /-- `\x7bok: true\x7d` (the default, never delivered as such here). -/
  | okTrue
  /-- `\x7bok: true, label\x7d` from `mark_moment`. -/
  | okLabel (label : String)
  /-- `\x7bmode\x7d` from a successful `set_sizzle_mode`. -/
  | modeSet (mode : String)
  /-- `\x7berror: 'mode must be "on" or "off"'\x7d`. -/
  | modeError
  /-- `\x7bok: false, error: "unknown_tool: <name>"\x7d`. -/
  | unknownTool (name : String)
deriving DecidableEq, Repr

/-- `JSON.stringify` of a tool result, key order as in the source object
literals.  String values are emitted verbatim (the labels and names used in
this development contain no characters that JSON would escape). -/
def ToolResult.toJson : ToolResult → String
  | .okTrue => "\x7b\"ok\":true\x7d"
  | .okLabel l => "\x7b\"ok\":true,\"label\":\"" ++ l ++ "\"\x7d"
  | .modeSet m => "\x7b\"mode\":\"" ++ m ++ "\"\x7d"
  | .modeError => "\x7b\"error\":\"mode must be \\\"on\\\" or \\\"off\\\"\"\x7d"
  | .unknownTool n => "\x7b\"ok\":false,\"error\":\"unknown_tool: " ++ n ++ "\"\x7d"

/-- The two delivery conventions a tool call may arrive in. -/
inductive Shape
  | functionEvent
  | itemEvent
deriving DecidableEq, Repr

/-- Messages the handler sends to the AI leg (through `send`, which is a
no-op when the AI socket is not open). `sessionUpdateOverlay b` stands for
the `session.update` that re-sends the system instructions with the energy
overlay for sizzle mode `b`. -/
inductive OAOut
  | responseCancel (responseId : Option String)
  | itemTruncate (itemId : String) (contentIndex : Nat) (audioEndMs : Nat)
  | functionResult (callId : String) (result : ToolResult)
  | itemCreate (callId : String) (output : String)
  | responseCreate
  | sessionUpdateOverlay (sizzle : Bool)
  | inputAudioAppend (payload : List Nat)
deriving DecidableEq, Repr

/-- `(args && args.label) ? String(args.label) : ''` -/
def labelOf (args : Option ToolArgs) : String :=
  match args with
  | none => ""
  | some a => match a.label with
    | none => ""
    | some l => l

/-- `(args && args.mode) ? String(args.mode) : ''` -/
def modeOf (args : Option ToolArgs) : String :=
  match args with
  | none => ""
  | some a => match a.mode with
    | none => ""
    | some m => m

/-- Result of dispatching one tool call: the (possibly updated) sizzle
mode and the messages sent to the AI leg, in order. -/
structure ToolDispatch where
  sizzleMode : Bool
  msgs : List OAOut
deriving DecidableEq, Repr

/-- `handleFunctionCall(\x7bname, call_id, args, shape\x7d)` from `index.js`:
recognized names run their handler; an unrecognized name produces the
structured `unknown_tool` error; the result is delivered either as a direct
`response.function.result` (shape `function_event`) or as a
`function_call_output` conversation item followed by `response.create`. -/
def handleFunctionCall (sizzle : Bool) (name callId : String)
    (args : Option ToolArgs) (shape : Shape) : ToolDispatch :=
  let pre : Bool × ToolResult × List OAOut :=
    if name = "mark_moment" then
      (sizzle, .okLabel (labelOf args), [])
    else if name = "set_sizzle_mode" then
      let mode := modeOf args
      if mode = "on" ∨ mode = "off" then
        let newSizzle := mode = "on"
        (newSizzle, .modeSet mode, [.sessionUpdateOverlay newSizzle])
      else
        (sizzle, .modeError, [])
    else
      (sizzle, .unknownTool name, [])
  let deliver : List OAOut :=
    match shape with
    | .functionEvent => [.functionResult callId pre.2.1]
    | .itemEvent => [.itemCreate callId pre.2.1.toJson, .responseCreate]
  ⟨pre.1, pre.2.2 ++ deliver⟩

/-! ## Per-connection state -/

/-- The mutable per-connection variables of the `/media-stream` handler.
`openAiOpen` models `openAiWs.readyState === WebSocket.OPEN`, which gates
every `send` to the AI leg.  `cutoffTimer` holds the absolute wall-clock
time (ms) at which the scheduled cutoff action would run, or `none` when no
cutoff is pending. -/
structure ConnState where
  streamSid : Option String
  callSid : Option String
  caller : String
  maxThisCall : Nat
  isUnlimited : Bool
  latestMediaTimestamp : Nat
  lastAssistantItem : Option String
  markQueue : List String
  responseStartTimestampTwilio : Option Nat
  callStartedAt : Option Nat
  cutoffTimer : Option Nat
  billed : Bool
  hasActiveResponse : Bool
  assistantStreaming : Bool
  currentResponseId : Option String
  dropAudioUntilNextResponse : Bool
  userSpeaking : Bool
  lastLocalBargeTs : Nat
  fastBargeCount : Nat
  assistantBytesSent : Nat
  assistantOutAvgAbsEma : Frac
  sizzleMode : Bool
  openAiOpen : Bool
deriving DecidableEq, Repr

/-- Fresh connection state, as initialized at the top of the
`/media-stream` handler for a given set of query parameters. -/
def initState (caller : String) (maxThisCall : Nat) (isUnlimited sizzle : Bool) :
    ConnState where
  streamSid := none
  callSid := none
  caller := caller
  maxThisCall := maxThisCall
  isUnlimited := isUnlimited
  latestMediaTimestamp := 0
  lastAssistantItem := none
  markQueue := []
  responseStartTimestampTwilio := none
  callStartedAt := none
  cutoffTimer := none
  billed := false
  hasActiveResponse := false
  assistantStreaming := false
  currentResponseId := none
  dropAudioUntilNextResponse := false
  userSpeaking := false
  lastLocalBargeTs := 0
  fastBargeCount := 0
  assistantBytesSent := 0
  assistantOutAvgAbsEma := ⟨0, 1⟩
  sizzleMode := sizzle
  openAiOpen := true

/-- Fast barge-in configuration, the raw numeric values of the
`FAST_BARGE_*` environment variables (`enabled` is `FAST_BARGE === 'on'`).
The `eff*` functions below apply the `|| default` fallbacks exactly where
the source does. -/
structure FastCfg where
  enabled : Bool
  windowBytes : Nat
  cooldownMs : Nat
  frames : Nat
  startGuardMs : Nat
  absThresh : Frac
  ratioQ : Frac
deriving DecidableEq, Repr

/-- `Math.max(1, Number(FAST_BARGE_WINDOW_BYTES) || 160)` -/
def effWindow (cfg : FastCfg) : Nat :=
  max 1 (if cfg.windowBytes = 0 then 160 else cfg.windowBytes)

/-- `Number(FAST_BARGE_COOLDOWN_MS) || 250` -/
def effCooldown (cfg : FastCfg) : Nat :=
  if cfg.cooldownMs = 0 then 250 else cfg.cooldownMs

/-- `Number(FAST_BARGE_FRAMES) || 2` -/
def effFrames (cfg : FastCfg) : Nat :=
  if cfg.frames = 0 then 2 else cfg.frames

/-- `Number(FAST_BARGE_START_GUARD_MS) || 1200` -/
def effGuard (cfg : FastCfg) : Nat :=
  if cfg.startGuardMs = 0 then 1200 else cfg.startGuardMs

/-- `Number(FAST_BARGE_ABS_THRESH) || 5000` -/
def effAbsThresh (cfg : FastCfg) : Frac :=
  if cfg.absThresh.isZero then ⟨5000, 1⟩ else cfg.absThresh

/-- `Number(FAST_BARGE_RATIO) || 1.6` -/
def effRatioQ (cfg : FastCfg) : Frac :=
  if cfg.ratioQ.isZero then ⟨8, 5⟩ else cfg.ratioQ

/-! ## Events and outputs -/

/-- Classified messages from the AI leg.  `functionCallEv` covers both
tool-call shapes: a `response.function.call` message (shape
`functionEvent`) and a `response.output_item.done` whose item is a
`function_call` (shape `itemEvent`).  `audioDelta` carries the id of the
response that produced it (present on the wire; the handler never reads
it) and the decoded payload bytes; an absent or empty `delta` string is
falsy and makes the handler skip the branch, which we model by the
`payload = []` case. -/
inductive OAEvent
  | responseCreated (responseId : Option String)
  | audioDelta (responseId : String) (itemId : Option String) (payload : List Nat)
  | responseDone
  | outputItemAdded (itemId : String)
  | speechStarted
  | speechStopped
  | functionCallEv (name callId : String) (args : Option ToolArgs) (shape : Shape)
  | otherEvent
deriving DecidableEq, Repr

/-- Telephony-leg events.  `stopEv` carries the wall-clock time at which it
is processed and whether the accounting collaborator would throw if the
deduction is attempted. -/
inductive TwEvent
  | startEv (streamSid callSid : String) (nowMs : Nat)
      (cpCaller : Option String) (cpMax : Option Nat) (cpUnlimited : Bool)
  | mediaEv (timestampMs : Nat) (payload : List Nat) (nowMs : Nat)
  | markEv
  | stopEv (nowMs : Nat) (deductThrows : Bool)
deriving DecidableEq, Repr

/-- Any event the connection can process: an AI-leg message, a
telephony-leg message, or the close of the telephony socket. -/
inductive Ev
  | fromOpenAi (e : OAEvent)
  | fromTwilio (e : TwEvent)
  | socketClose (nowMs : Nat) (deductThrows : Bool)
deriving DecidableEq, Repr

/-- Messages sent to the telephony leg.  The `tag` on `mediaOut` records
which AI response produced the forwarded frame; it is provenance metadata
for stating suppression properties — the wire message carries only the
payload. -/
inductive TwOut
  | mediaOut (payload : List Nat) (tag : String)
  | markOut
deriving DecidableEq, Repr

/-- One call to `deductSeconds(caller, seconds, \x7breason\x7d)`; `ok` is
false when the collaborator threw (the handler logs and continues). -/
structure BillAttempt where
  caller : String
  seconds : Int
  reason : String
  ok : Bool
deriving DecidableEq, Repr

/-- Everything one step emits. `localBarge` mirrors the
`[BARGE] local trigger` log line: true exactly when the local heuristic
detector fires on this event. -/
structure StepOut where
  oaMsgs : List OAOut
  twMsgs : List TwOut
  attempt : Option BillAttempt
  localBarge : Bool
deriving DecidableEq, Repr

/-- A step that emits nothing. -/
def noOut : StepOut := ⟨[], [], none, false⟩

/-! ## Accounting hook (`billUsage`) -/

/-- `billUsage(reason)` from `index.js`: returns immediately when already
billed, when the caller id is falsy, or when `callStartedAt` is falsy;
otherwise sets `billed` **before** computing the duration and attempting
the deduction.  Duration is
`Math.max(1, Math.max(Math.ceil((now - callStartedAt) / 1000),
Math.ceil(latestMediaTimestamp / 1000)))`.  Unlimited callers skip the
deduction (with `billed` already set).  The `try/catch` around
`deductSeconds` only logs, so the resulting state does not depend on
`deductThrows`. -/
def billUsage (s : ConnState) (nowMs : Nat) (reason : String)
    (deductThrows : Bool) : ConnState × Option BillAttempt :=
  if s.billed then (s, none)
  else if ¬ jsTruthyStr s.caller then (s, none)
  else if ¬ jsTruthyNum s.callStartedAt then (s, none)
  else
    let t0 := s.callStartedAt.getD 0
    let s2 := { s with billed := true }
    let wall : Int := intCeilDiv ((nowMs : Int) - (t0 : Int)) 1000
    let fromTwilio : Int := intCeilDiv (s.latestMediaTimestamp : Int) 1000
    let seconds : Int := max 1 (max wall fromTwilio)
    if s.isUnlimited then (s2, none)
    else (s2, some ⟨s.caller, seconds, reason, !deductThrows⟩)

/-! ## Barge-in transition (`handleSpeechStartedEvent`) -/

/-- `handleSpeechStartedEvent` from `index.js`: cancel the active response
when one is known to exist, mark all further deltas for dropping, record
that the user is speaking, send a `conversation.item.truncate` for the last
assistant item at offset `Math.floor(assistantBytesSent / 8)` ms when an
item is known and bytes were forwarded, then reset the local turn
bookkeeping.  All sends go through `send`, which is a no-op when the AI
socket is not open. -/
def handleSpeechStartedEvent (s : ConnState) : ConnState × List OAOut :=
  let shouldCancel :=
    s.hasActiveResponse || s.assistantStreaming || jsTruthyStrOpt s.currentResponseId
  let cancelMsgs : List OAOut :=
    if shouldCancel then
      if jsTruthyStrOpt s.currentResponseId then [.responseCancel s.currentResponseId]
      else [.responseCancel none]
    else []
  let truncMsgs : List OAOut :=
    if jsTruthyStrOpt s.lastAssistantItem ∧ 0 < s.assistantBytesSent then
      [.itemTruncate (s.lastAssistantItem.getD "") 0 (s.assistantBytesSent / 8)]
    else []
  let msgs := if s.openAiOpen then cancelMsgs ++ truncMsgs else []
  ({ s with
      dropAudioUntilNextResponse := true
      userSpeaking := true
      markQueue := []
      lastAssistantItem := none
      responseStartTimestampTwilio := none
      assistantStreaming := false
      hasActiveResponse := false
      fastBargeCount := 0 }, msgs)

/-! ## AI-leg message handler (`openAiWs.on('message')`) -/

/-- One AI-leg message, mirroring the `openAiWs.on('message')` dispatch in
`index.js`.  The audio-delta branch forwards the payload to the telephony
leg unless `dropAudioUntilNextResponse || userSpeaking`, accumulates the
forwarded byte count, updates the outbound-energy EMA with
`ema(prev, muLawAvgAbs(outBuf, win), 0.35)`, latches the Twilio timestamp
at which the response started (a falsy — absent or zero — latch is
re-written), records the assistant item id when truthy, and queues a mark
when a stream id is known. -/
def processOa (cfg : FastCfg) (s : ConnState) (e : OAEvent) : ConnState × StepOut :=
  match e with
  | .responseCreated rid =>
      ({ s with
          hasActiveResponse := true
          currentResponseId := rid
          dropAudioUntilNextResponse := false
          assistantBytesSent := 0 }, noOut)
  | .audioDelta rid itemId payload =>
      if payload = [] then (s, noOut)
      else if s.dropAudioUntilNextResponse || s.userSpeaking then (s, noOut)
      else
        let outAvg := muLawAvgAbs payload (effWindow cfg)
        let s2 := { s with
          assistantBytesSent := s.assistantBytesSent + payload.length
          assistantOutAvgAbsEma := emaStep s.assistantOutAvgAbsEma outAvg ⟨7, 20⟩
          responseStartTimestampTwilio :=
            if jsTruthyNum s.responseStartTimestampTwilio then
              s.responseStartTimestampTwilio
            else some s.latestMediaTimestamp
          assistantStreaming := true
          lastAssistantItem :=
            if jsTruthyStrOpt itemId then itemId else s.lastAssistantItem }
        if jsTruthyStrOpt s2.streamSid then
          ({ s2 with markQueue := s2.markQueue ++ ["responsePart"] },
           { noOut with twMsgs := [.mediaOut payload rid, .markOut] })
        else
          (s2, { noOut with twMsgs := [.mediaOut payload rid] })
  | .responseDone =>
      ({ s with
          hasActiveResponse := false
          assistantStreaming := false
          currentResponseId := none
          dropAudioUntilNextResponse := false
          assistantBytesSent := 0 }, noOut)
  | .outputItemAdded itemId =>
      if jsTruthyStr itemId then ({ s with lastAssistantItem := some itemId }, noOut)
      else (s, noOut)
  | .speechStarted =>
      let r := handleSpeechStartedEvent s
      (r.1, { noOut with oaMsgs := r.2 })
  | .speechStopped =>
      ({ s with userSpeaking := false }, noOut)
  | .functionCallEv name callId args shape =>
      let d := handleFunctionCall s.sizzleMode name callId args shape
      ({ s with sizzleMode := d.sizzleMode },
       { noOut with oaMsgs := if s.openAiOpen then d.msgs else [] })
  | .otherEvent => (s, noOut)

/-! ## Local barge-in detector (media case of the Twilio handler) -/

/-- The outer gate of the fast barge-in block:
`FAST_BARGE_ON && assistantStreaming && !userSpeaking &&
!dropAudioUntilNextResponse`. -/
def frameEvaluated (cfg : FastCfg) (s : ConnState) : Bool :=
  cfg.enabled && s.assistantStreaming && !s.userSpeaking && !s.dropAudioUntilNextResponse

/-- The timing gate: `since > cooldown && sinceStart > guardMs`, where
`since = now - lastLocalBargeTs` and `sinceStart` is
`latestMediaTimestamp - responseStartTimestampTwilio` when both are truthy
and `Infinity` (which passes) otherwise.  `ts` is the current frame
timestamp, already written to `latestMediaTimestamp`. -/
def windowsPermit (cfg : FastCfg) (s : ConnState) (ts nowMs : Nat) : Bool :=
  let since : Int := (nowMs : Int) - (s.lastLocalBargeTs : Int)
  let cooldownOk := decide ((effCooldown cfg : Int) < since)
  let guardOk :=
    if jsTruthyNum s.responseStartTimestampTwilio && ts ≠ 0 then
      decide ((effGuard cfg : Int) <
        (ts : Int) - (s.responseStartTimestampTwilio.getD 0 : Int))
    else true
  cooldownOk && guardOk

/-- The energy test: the frame qualifies when its decoded average absolute
amplitude over `min(buf.length, win)` bytes strictly exceeds
`max(absThresh, assistantOutAvgAbsEma * ratio)`. -/
def frameQualifies (cfg : FastCfg) (s : ConnState) (payload : List Nat) : Bool :=
  let len := min payload.length (effWindow cfg)
  let inAvg := muLawAvgAbs payload len
  ((effAbsThresh cfg).maxF (s.assistantOutAvgAbsEma.mul (effRatioQ cfg))).blt inAvg

/-- The `media` case of the Twilio message handler: record the frame
timestamp, run the fast barge-in heuristic (debounce counter, firing into
`handleSpeechStartedEvent`), then forward the audio to the AI leg when its
socket is open.  Returns the new state, the emitted messages, and whether
the local detector fired. -/
def processMedia (cfg : FastCfg) (s : ConnState) (ts : Nat) (payload : List Nat)
    (nowMs : Nat) : ConnState × StepOut :=
  let s1 := { s with latestMediaTimestamp := ts }
  let barge : ConnState × List OAOut × Bool :=
    if frameEvaluated cfg s1 && windowsPermit cfg s1 ts nowMs then
      if frameQualifies cfg s1 payload then
        let cnt := s1.fastBargeCount + 1
        if effFrames cfg ≤ cnt then
          let s2 := { s1 with lastLocalBargeTs := nowMs, fastBargeCount := cnt }
          let r := handleSpeechStartedEvent s2
          ({ r.1 with fastBargeCount := 0 }, r.2, true)
        else ({ s1 with fastBargeCount := cnt }, [], false)
      else ({ s1 with fastBargeCount := 0 }, [], false)
    else (s1, [], false)
  let s3 := barge.1
  let appendMsgs : List OAOut :=
    if s3.openAiOpen then [.inputAudioAppend payload] else []
  (s3, { oaMsgs := barge.2.1 ++ appendMsgs, twMsgs := [], attempt := none,
         localBarge := barge.2.2 })

/-! ## Telephony-leg handler and combined step -/

/-- The Twilio `connection.on('message')` dispatch. The `start` case
recovers falsy query parameters from `customParameters`, resets the media
timestamp bookkeeping, records the call start time, and schedules the
cutoff action `maxThisCall * 1000` ms out when a positive budget and a
call id are known.  `stop` closes the AI socket, cancels the pending
cutoff, and runs `billUsage('stop')`. -/
def processTw (cfg : FastCfg) (s : ConnState) (e : TwEvent) : ConnState × StepOut :=
  match e with
  | .startEv sid cid nowMs cpCaller cpMax cpUnlimited =>
      let caller2 :=
        if ¬ jsTruthyStr s.caller ∧ jsTruthyStrOpt cpCaller then cpCaller.getD ""
        else s.caller
      let max2 :=
        if s.maxThisCall = 0 ∧ jsTruthyNum cpMax then cpMax.getD 0
        else s.maxThisCall
      let s2 := { s with
        streamSid := some sid
        callSid := some cid
        caller := caller2
        maxThisCall := max2
        isUnlimited := s.isUnlimited || cpUnlimited
        responseStartTimestampTwilio := none
        latestMediaTimestamp := 0
        callStartedAt := some nowMs }
      let s3 :=
        if 0 < max2 ∧ jsTruthyStr cid then
          { s2 with cutoffTimer := some (nowMs + max2 * 1000) }
        else s2
      (s3, noOut)
  | .mediaEv ts payload nowMs => processMedia cfg s ts payload nowMs
  | .markEv => ({ s with markQueue := s.markQueue.tail }, noOut)
  | .stopEv nowMs deductThrows =>
      let s2 := { s with openAiOpen := false, cutoffTimer := none }
      let r := billUsage s2 nowMs "stop" deductThrows
      (r.1, { noOut with attempt := r.2 })

/-- One event of the whole connection: AI-leg message, telephony-leg
message, or the telephony socket closing (which cancels the cutoff, runs
`billUsage('close')`, and closes the AI socket). -/
def step (cfg : FastCfg) (s : ConnState) (e : Ev) : ConnState × StepOut :=
  match e with
  | .fromOpenAi oe => processOa cfg s oe
  | .fromTwilio te => processTw cfg s te
  | .socketClose nowMs deductThrows =>
      let s2 := { s with cutoffTimer := none }
      let r := billUsage s2 nowMs "close" deductThrows
      ({ r.1 with openAiOpen := false }, { noOut with attempt := r.2 })

/-- State after processing a list of events in order. -/
def runState (cfg : FastCfg) : ConnState → List Ev → ConnState
  | s, [] => s
  | s, e :: es => runState cfg (step cfg s e).1 es

/-- Per-event outputs of processing a list of events in order. -/
def runOuts (cfg : FastCfg) : ConnState → List Ev → List StepOut
  | _, [] => []
  | s, e :: es => (step cfg s e).2 :: runOuts cfg (step cfg s e).1 es

/-- Number of calls made to `deductSeconds` over a run. -/
def deductCount (cfg : FastCfg) (s : ConnState) (evs : List Ev) : Nat :=
  ((runOuts cfg s evs).filterMap StepOut.attempt).length

/-! ## Entitlement store (`src/lib/license.mjs`) -/

/-- A contact row as read by the entitlement module: the token balance
column (`rbt`, an integer in the store — the module clamps it on every
read) and the unlimited flag. -/
structure ContactRec where
  wid : String
  rbt : Int
  isUnlimited : Bool
deriving DecidableEq, Repr

/-- `ensureEntitlement`: `(trialLeft, paidLeft)` with
`paidLeft = Math.max(0, Number(c.rbt ?? 0) || 0) * RBT_TO_SECONDS`, or the
unlimited allowance for unlimited contacts. -/
def ensureEntitlementView (rbtToSeconds unlimitedSeconds : Nat) (c : ContactRec) :
    Int × Int :=
  if c.isUnlimited then (0, (unlimitedSeconds : Int))
  else (0, max 0 c.rbt * (rbtToSeconds : Int))

/-- `totalSecondsLeft`: `Math.max(0, trialLeft + paidLeft)`. -/
def totalSecondsLeftView (rbtToSeconds unlimitedSeconds : Nat) (c : ContactRec) : Int :=
  max 0 ((ensureEntitlementView rbtToSeconds unlimitedSeconds c).1 +
    (ensureEntitlementView rbtToSeconds unlimitedSeconds c).2)

/-- `deductSeconds(userId, seconds)` from `license.mjs`, acting on the
contact row: a no-op for unlimited contacts; otherwise
`secs = Math.max(0, Number(seconds) || 0)` (a `Nat` argument is already
clamped), `tokens = Math.ceil(secs / RBT_TO_SECONDS)`, return unchanged
when `tokens <= 0`, else write
`rbt := Math.max(0, Math.max(0, rbt) - tokens)`. -/
def deductSecondsDb (rbtToSeconds : Nat) (c : ContactRec) (seconds : Nat) : ContactRec :=
  if c.isUnlimited then c
  else
    let tokens : Int := intCeilDiv (seconds : Int) (rbtToSeconds : Int)
    if tokens ≤ 0 then c
    else
      let before : Int := max 0 c.rbt
      { c with rbt := max 0 (before - tokens) }

/-! ## General lemmas about the ceiling divisions -/

/-- `intCeilDiv` computes the real ceiling of the fraction. -/
theorem intCeilDiv_eq_ceil (a b : Int) (hb : 0 < b) :
    intCeilDiv a b = Int.ceil ((a : ℚ) / (b : ℚ)) := by
  have hbq : (0 : ℚ) < (b : ℚ) := by exact_mod_cast hb
  have hmod := Int.ediv_add_emod (-a) b
  have hmodlt : (-a) % b < b := Int.emod_lt_of_pos _ hb
  have hmodge : 0 ≤ (-a) % b := Int.emod_nonneg _ (by omega)
  have hcast : (b : ℚ) * ((-a : Int) / b : Int) + ((-a : Int) % b : Int) = ((-a : Int) : ℚ) := by
    exact_mod_cast congrArg (fun z : Int => (z : ℚ)) hmod
  push_cast at hcast
  symm
  rw [Int.ceil_eq_iff]
  refine ⟨?_, ?_⟩
  · rw [intCeilDiv]
    push_cast
    rw [lt_div_iff hbq]
    have hlt : ((((-a) % b : Int) : ℚ)) < (b : ℚ) := by exact_mod_cast hmodlt
    nlinarith
  · rw [intCeilDiv]
    push_cast
    rw [div_le_iff hbq]
    have hge : (0 : ℚ) ≤ (((-a) % b : Int) : ℚ) := by exact_mod_cast hmodge
    nlinarith

/-- On naturals, `intCeilDiv` agrees with the `(a + b - 1) / b` form of
ceiling division. -/
theorem intCeilDiv_natCast (a b : Nat) (hb : 0 < b) :
    intCeilDiv (a : Int) (b : Int) = (natCeilDiv a b : Int) := by
  have hbq : (0 : ℚ) < (b : ℚ) := by exact_mod_cast hb
  rw [intCeilDiv_eq_ceil _ _ (by exact_mod_cast hb), Int.ceil_eq_iff]
  have hmod := Nat.div_add_mod (a + b - 1) b
  have hlt : (a + b - 1) % b < b := Nat.mod_lt _ hb
  have h1 : a ≤ b * natCeilDiv a b := by unfold natCeilDiv; omega
  have h2 : b * natCeilDiv a b < a + b := by unfold natCeilDiv; omega
  have h1q : (a : ℚ) ≤ (b : ℚ) * (natCeilDiv a b : ℚ) := by exact_mod_cast h1
  have h2q : (b : ℚ) * (natCeilDiv a b : ℚ) < (a : ℚ) + (b : ℚ) := by exact_mod_cast h2
  refine ⟨?_, ?_⟩
  · push_cast
    rw [lt_div_iff hbq]
    nlinarith
  · push_cast
    rw [div_le_iff hbq]
    nlinarith

/-- `Frac.blt` decides the rational strict order when both denominators
are positive. -/
theorem Frac.blt_toQ (a b : Frac) (ha : 0 < a.den) (hb : 0 < b.den) :
    a.blt b = true ↔ a.toQ < b.toQ := by
  have haq : (0 : ℚ) < (a.den : ℚ) := by exact_mod_cast ha
  have hbq : (0 : ℚ) < (b.den : ℚ) := by exact_mod_cast hb
  rw [Frac.blt, Frac.toQ, Frac.toQ, div_lt_div_iff haq hbq]
  constructor
  · intro h
    have h2 : a.num * b.den < b.num * a.den := by simpa using h
    exact_mod_cast h2
  · intro h
    simp only [decide_eq_true_eq]
    exact_mod_cast h

/-- `Frac.maxF` denotes the rational maximum when both denominators are
positive. -/
theorem Frac.maxF_toQ (a b : Frac) (ha : 0 < a.den) (hb : 0 < b.den) :
    (a.maxF b).toQ = max a.toQ b.toQ := by
  rw [Frac.maxF]
  rcases lt_trichotomy a.toQ b.toQ with h | h | h
  · rw [if_pos ((Frac.blt_toQ a b ha hb).2 h), max_eq_right h.le]
  · by_cases hblt : a.blt b = true
    · rw [if_pos hblt, max_eq_right h.le]
    · rw [if_neg (by simpa using hblt), h, max_self]
  · have : ¬ a.blt b = true := by
      intro hc
      exact absurd ((Frac.blt_toQ a b ha hb).1 hc) (not_lt.2 h.le)
    rw [if_neg (by simpa using this), max_eq_left h.le]

/-! ## The one-shot billing guard -/

/-- Once `billed` is set, `billUsage` is a no-op. -/
theorem billUsage_of_billed (s : ConnState) (nowMs : Nat) (r : String) (th : Bool)
    (h : s.billed = true) : billUsage s nowMs r th = (s, none) := by
  unfold billUsage
  simp [h]

/-- Every `billUsage` call either leaves the state unchanged and reports
nothing, or finds `billed` still unset and sets it. -/
theorem billUsage_state_cases (s : ConnState) (nowMs : Nat) (r : String) (th : Bool) :
    ((billUsage s nowMs r th).1 = s ∧ (billUsage s nowMs r th).2 = none) ∨
    ((billUsage s nowMs r th).1 = { s with billed := true } ∧ s.billed = false) := by
  unfold billUsage
  split_ifs <;> simp_all

/-- `processOa` never touches `billed` and never calls the accounting
collaborator. -/
theorem processOa_billing (cfg : FastCfg) (s : ConnState) (e : OAEvent) :
    (processOa cfg s e).1.billed = s.billed ∧ (processOa cfg s e).2.attempt = none := by
  cases e <;>
    first
    | exact ⟨rfl, rfl⟩
    | · unfold processOa handleSpeechStartedEvent
        dsimp only [noOut]
        split_ifs <;> exact ⟨rfl, rfl⟩

/-- `processMedia` never touches `billed` and never calls the accounting
collaborator. -/
theorem processMedia_billing (cfg : FastCfg) (s : ConnState) (ts : Nat)
    (payload : List Nat) (nowMs : Nat) :
    (processMedia cfg s ts payload nowMs).1.billed = s.billed ∧
    (processMedia cfg s ts payload nowMs).2.attempt = none := by
  unfold processMedia handleSpeechStartedEvent
  dsimp only
  split_ifs <;> exact ⟨rfl, rfl⟩

/-- Every step either preserves `billed` and makes no accounting call, or
flips `billed` from unset to set. -/
theorem step_billing (cfg : FastCfg) (s : ConnState) (e : Ev) :
    ((step cfg s e).1.billed = s.billed ∧ (step cfg s e).2.attempt = none) ∨
    (s.billed = false ∧ (step cfg s e).1.billed = true) := by
  cases e with
  | fromOpenAi oe =>
      exact Or.inl (processOa_billing cfg s oe)
  | fromTwilio te =>
      cases te with
      | startEv sid cid nowMs cpC cpM cpU =>
          left
          refine ⟨?_, rfl⟩
          unfold step processTw
          dsimp only
          split_ifs <;> rfl
      | mediaEv ts payload nowMs =>
          exact Or.inl (processMedia_billing cfg s ts payload nowMs)
      | markEv => exact Or.inl ⟨rfl, rfl⟩
      | stopEv nowMs th =>
          rcases billUsage_state_cases
              { s with openAiOpen := false, cutoffTimer := none } nowMs "stop" th with
            ⟨h1, h0⟩ | ⟨h1, h2⟩
          · left
            constructor
            · show (billUsage { s with openAiOpen := false, cutoffTimer := none }
                nowMs "stop" th).1.billed = s.billed
              rw [h1]
            · show (billUsage { s with openAiOpen := false, cutoffTimer := none }
                nowMs "stop" th).2 = none
              exact h0
          · right
            refine ⟨h2, ?_⟩
            show (billUsage { s with openAiOpen := false, cutoffTimer := none }
              nowMs "stop" th).1.billed = true
            rw [h1]
  | socketClose nowMs th =>
      rcases billUsage_state_cases { s with cutoffTimer := none } nowMs "close" th with
        ⟨h1, h0⟩ | ⟨h1, h2⟩
      · left
        constructor
        · show ({ (billUsage { s with cutoffTimer := none } nowMs "close" th).1 with
            openAiOpen := false }).billed = s.billed
          rw [h1]
        · show (billUsage { s with cutoffTimer := none } nowMs "close" th).2 = none
          exact h0
      · right
        refine ⟨h2, ?_⟩
        show ({ (billUsage { s with cutoffTimer := none } nowMs "close" th).1 with
          openAiOpen := false }).billed = true
        rw [h1]

/-- `runOuts` on a cons. -/
theorem runOuts_cons (cfg : FastCfg) (s : ConnState) (e : Ev) (es : List Ev) :
    runOuts cfg s (e :: es) = (step cfg s e).2 :: runOuts cfg (step cfg s e).1 es := rfl

/-- `runState` on a cons. -/
theorem runState_cons (cfg : FastCfg) (s : ConnState) (e : Ev) (es : List Ev) :
    runState cfg s (e :: es) = runState cfg (step cfg s e).1 es := rfl

/-- Unfolding `deductCount` over the first event. -/
theorem deductCount_cons (cfg : FastCfg) (s : ConnState) (e : Ev) (es : List Ev) :
    deductCount cfg s (e :: es) =
      ((step cfg s e).2.attempt.toList.length) + deductCount cfg (step cfg s e).1 es := by
  unfold deductCount
  rw [runOuts_cons]
  cases h : (step cfg s e).2.attempt <;> simp [List.filterMap_cons, h, Nat.add_comm]

/-- Over any event list, the number of accounting calls is zero once
`billed` is set, and at most one otherwise. -/
theorem deductCount_le (cfg : FastCfg) (evs : List Ev) :
    ∀ s : ConnState, deductCount cfg s evs ≤ if s.billed = true then 0 else 1 := by
  induction evs with
  | nil =>
      intro s
      simp [deductCount, runOuts]
  | cons e es ih =>
      intro s
      rw [deductCount_cons]
      have ihs := ih (step cfg s e).1
      rcases step_billing cfg s e with ⟨h1, h2⟩ | ⟨h1, h2⟩
      · rw [h2]
        rw [h1] at ihs
        simpa using ihs
      · rw [if_neg (by simp [h1] : ¬ s.billed = true)]
        rw [h2] at ihs
        have ihs2 : deductCount cfg (step cfg s e).1 es ≤ 0 := by simpa using ihs
        have hlen : (step cfg s e).2.attempt.toList.length ≤ 1 := by
          cases (step cfg s e).2.attempt <;> simp
        omega

/-- C1: over every sequence of events a fresh connection can process — in
particular any number and interleaving of telephony `stop` events and
transport closes — the accounting report (the call to `deductSeconds`) is
performed at most once, guarded by the one-shot `billed` flag. -/
theorem accounting_report_at_most_once (cfg : FastCfg) (caller : String)
    (mx : Nat) (ul sz : Bool) (evs : List Ev) :
    deductCount cfg (initState caller mx ul sz) evs ≤ 1 := by
  have h := deductCount_le cfg evs (initState caller mx ul sz)
  simpa [initState] using h

/-- The resulting state of `billUsage` does not depend on whether the
accounting collaborator throws. -/
theorem billUsage_state_indep (s : ConnState) (nowMs : Nat) (r : String)
    (t1 t2 : Bool) : (billUsage s nowMs r t1).1 = (billUsage s nowMs r t2).1 := by
  unfold billUsage
  split_ifs <;> rfl

/-- C2 counterexample: with a caller and start time set, a `billUsage`
whose deduction throws (`deductThrows = true`, so the attempt records
`ok = false`) nevertheless leaves the session with `billed = true` — the
flag is set before the attempt, not on confirmed success. -/
theorem billed_set_despite_deduct_throw_cex :
    ((billUsage { initState "c" 0 false false with callStartedAt := some 1000 }
        31000 "stop" true).1.billed = true) ∧
    ((billUsage { initState "c" 0 false false with callStartedAt := some 1000 }
        31000 "stop" true).2 = some ⟨"c", 30, "stop", false⟩) := by
  decide

/-- C2 (amended): when `billUsage` reaches the deduction at all, the
`billed` flag has already been set before the attempt; a throwing
collaborator only gets logged — the resulting state equals the state on
success, the call continues with no other state change, and every later
`billUsage` invocation returns without reporting, so a failed report is
never retried. -/
theorem billUsage_flag_set_before_outcome (s : ConnState) (nowMs : Nat)
    (r : String) (th : Bool) (a : BillAttempt)
    (h : (billUsage s nowMs r th).2 = some a) :
    (billUsage s nowMs r th).1 = { s with billed := true } ∧
    (billUsage s nowMs r th).1 = (billUsage s nowMs r (!th)).1 ∧
    ∀ (n2 : Nat) (r2 : String) (t2 : Bool),
      billUsage (billUsage s nowMs r th).1 n2 r2 t2 =
        ((billUsage s nowMs r th).1, none) := by
  rcases billUsage_state_cases s nowMs r th with ⟨_, h2⟩ | ⟨h1, _⟩
  · rw [h] at h2
    cases h2
  · refine ⟨h1, billUsage_state_indep s nowMs r th (!th), ?_⟩
    intro n2 r2 t2
    have hb : (billUsage s nowMs r th).1.billed = true := by rw [h1]
    exact billUsage_of_billed _ n2 r2 t2 hb

/-- C2 witness: instantiating the amended statement at a concrete throwing
deduction. -/
theorem billUsage_flag_set_before_outcome_witness :
    (billUsage { initState "c" 0 false false with callStartedAt := some 1000 }
        31000 "stop" true).1 =
      { { initState "c" 0 false false with callStartedAt := some 1000 } with
        billed := true } ∧
    (billUsage { initState "c" 0 false false with callStartedAt := some 1000 }
        31000 "stop" true).1 =
      (billUsage { initState "c" 0 false false with callStartedAt := some 1000 }
        31000 "stop" (!true)).1 ∧
    ∀ (n2 : Nat) (r2 : String) (t2 : Bool),
      billUsage (billUsage { initState "c" 0 false false with
          callStartedAt := some 1000 } 31000 "stop" true).1 n2 r2 t2 =
        ((billUsage { initState "c" 0 false false with
          callStartedAt := some 1000 } 31000 "stop" true).1, none) :=
  billUsage_flag_set_before_outcome _ 31000 "stop" true ⟨"c", 30, "stop", false⟩
    (by decide)

/-- C4: whenever `billUsage` reports, the reported duration equals
`max(ceil(wall-clock ms elapsed since start / 1000), ceil(last media
timestamp / 1000))` and is never below one second. -/
theorem billUsage_duration_formula (s : ConnState) (nowMs t0 : Nat) (r : String)
    (th : Bool) (a : BillAttempt)
    (hstart : s.callStartedAt = some t0)
    (hmono : t0 ≤ nowMs)
    (h : (billUsage s nowMs r th).2 = some a) :
    a.seconds = ((max 1 (max (natCeilDiv (nowMs - t0) 1000)
        (natCeilDiv s.latestMediaTimestamp 1000)) : Nat) : Int) ∧
    1 ≤ a.seconds := by
  unfold billUsage at h
  split_ifs at h
  simp only [Option.some.injEq] at h
  subst h
  have hwall : intCeilDiv ((nowMs : Int) - (s.callStartedAt.getD 0 : Nat)) 1000 =
      (natCeilDiv (nowMs - t0) 1000 : Int) := by
    rw [hstart]
    have hsub : (nowMs : Int) - ((t0 : Nat) : Int) = ((nowMs - t0 : Nat) : Int) := by
      omega
    simp only [Option.getD_some]
    rw [hsub]
    exact_mod_cast intCeilDiv_natCast (nowMs - t0) 1000 (by norm_num)
  have hts : intCeilDiv (s.latestMediaTimestamp : Int) 1000 =
      (natCeilDiv s.latestMediaTimestamp 1000 : Int) := by
    exact_mod_cast intCeilDiv_natCast s.latestMediaTimestamp 1000 (by norm_num)
  constructor
  · show max 1 (max (intCeilDiv ((nowMs : Int) - (s.callStartedAt.getD 0 : Nat)) 1000)
        (intCeilDiv (s.latestMediaTimestamp : Int) 1000)) = _
    rw [hwall, hts]
    push_cast
    rfl
  · exact le_max_left 1 _

/-- A concrete session 30 s into a call, used to exercise the duration
formula. -/
def sampleBilledState : ConnState :=
  { initState "c" 0 false false with
      callStartedAt := some 1000
      latestMediaTimestamp := 4500 }

/-- C4 witness: a session started at t=1000 ms, last media timestamp
4500 ms, billed at t=31000 ms reports `max(30, 5) = 30` seconds. -/
theorem billUsage_duration_formula_witness :
    ((⟨"c", 30, "stop", true⟩ : BillAttempt).seconds =
      ((max 1 (max (natCeilDiv (31000 - 1000) 1000)
        (natCeilDiv sampleBilledState.latestMediaTimestamp 1000)) : Nat) : Int)) ∧
    1 ≤ ((⟨"c", 30, "stop", true⟩ : BillAttempt).seconds) :=
  billUsage_duration_formula sampleBilledState
    31000 1000 "stop" false ⟨"c", 30, "stop", true⟩ (by decide) (by decide) (by decide)

/-! ## C10: deductSeconds never drives the balance negative -/

/-- C10 counterexample: for an unlimited contact the deduction is a no-op,
so the stored balance does not follow the
`max(0, before - ceil(seconds / RBT_TO_SECONDS))` equation: with
`rbt = 10`, `RBT_TO_SECONDS = 3` and a 30-second deduction the equation
predicts 0 but the balance stays 10. -/
theorem deduct_unlimited_balance_cex :
    (deductSecondsDb 3 ⟨"w", 10, true⟩ 30).rbt = 10 ∧
    ¬ ((deductSecondsDb 3 ⟨"w", 10, true⟩ 30).rbt =
        max 0 ((⟨"w", 10, true⟩ : ContactRec).rbt - (natCeilDiv 30 3 : Int))) := by
  decide

/-- C10 (amended): for every non-unlimited contact with a nonnegative
stored balance and every seconds value, the updated balance equals
`max(0, before - ceil(seconds / RBT_TO_SECONDS))`, hence never negative,
and the remaining-seconds view is nonnegative afterward. -/
theorem deductSeconds_balance_formula (r : Nat) (c : ContactRec) (seconds : Nat)
    (hr : 0 < r) (hnu : c.isUnlimited = false) (h0 : 0 ≤ c.rbt) :
    (deductSecondsDb r c seconds).rbt =
      max 0 (c.rbt - (natCeilDiv seconds r : Int)) ∧
    0 ≤ (deductSecondsDb r c seconds).rbt ∧
    ∀ u : Nat, 0 ≤ totalSecondsLeftView r u (deductSecondsDb r c seconds) := by
  have htok : intCeilDiv (seconds : Int) (r : Int) = (natCeilDiv seconds r : Int) := by
    exact_mod_cast intCeilDiv_natCast seconds r hr
  have hmain : (deductSecondsDb r c seconds).rbt =
      max 0 (c.rbt - (natCeilDiv seconds r : Int)) := by
    unfold deductSecondsDb
    rw [if_neg (by simp [hnu]), htok]
    dsimp only
    split_ifs with hle
    · have ht0 : (natCeilDiv seconds r : Int) = 0 := by omega
      rw [ht0, sub_zero, max_eq_right h0]
    · dsimp only
      rw [max_eq_right h0]
  refine ⟨hmain, ?_, ?_⟩
  · rw [hmain]
    exact le_max_left 0 _
  · intro u
    simp only [totalSecondsLeftView]
    exact le_max_left 0 _

/-- C10 witness: a 31-second deduction at 3 seconds per token takes 11
tokens from a balance of 10 and clamps at 0. -/
theorem deductSeconds_balance_formula_witness :
    ((deductSecondsDb 3 ⟨"w", 10, false⟩ 31).rbt =
      max 0 ((⟨"w", 10, false⟩ : ContactRec).rbt - (natCeilDiv 31 3 : Int))) ∧
    0 ≤ (deductSecondsDb 3 ⟨"w", 10, false⟩ 31).rbt ∧
    ∀ u : Nat, 0 ≤ totalSecondsLeftView 3 u (deductSecondsDb 3 ⟨"w", 10, false⟩ 31) :=
  deductSeconds_balance_formula 3 ⟨"w", 10, false⟩ 31 (by decide) (by decide) (by decide)

/-! ## C8: the cutoff timer is cancelled on every termination path -/

/-- Whether an event is the telephony `start` message (the only event that
schedules the cutoff action). -/
def isStartEv : Ev → Bool
  | .fromTwilio (.startEv _ _ _ _ _ _) => true
  | _ => false

/-- Whether an event is a termination signal: the telephony `stop` message
or the transport close. -/
def isTermination : Ev → Bool
  | .fromTwilio (.stopEv _ _) => true
  | .socketClose _ _ => true
  | _ => false

/-- `billUsage` never touches the cutoff timer. -/
theorem billUsage_cutoff (s : ConnState) (nowMs : Nat) (r : String) (th : Bool) :
    (billUsage s nowMs r th).1.cutoffTimer = s.cutoffTimer := by
  unfold billUsage
  split_ifs <;> rfl

/-- The AI-leg handler never touches the cutoff timer. -/
theorem processOa_cutoff (cfg : FastCfg) (s : ConnState) (e : OAEvent) :
    (processOa cfg s e).1.cutoffTimer = s.cutoffTimer := by
  cases e <;>
    first
    | rfl
    | · unfold processOa handleSpeechStartedEvent
        dsimp only [noOut]
        split_ifs <;> rfl

/-- The media handler never touches the cutoff timer. -/
theorem processMedia_cutoff (cfg : FastCfg) (s : ConnState) (ts : Nat)
    (payload : List Nat) (nowMs : Nat) :
    (processMedia cfg s ts payload nowMs).1.cutoffTimer = s.cutoffTimer := by
  unfold processMedia handleSpeechStartedEvent
  dsimp only
  split_ifs <;> rfl

/-- No event other than telephony `start` can set the cutoff timer. -/
theorem step_cutoff_preserved_none (cfg : FastCfg) (s : ConnState) (e : Ev)
    (hs : s.cutoffTimer = none) (he : isStartEv e = false) :
    (step cfg s e).1.cutoffTimer = none := by
  cases e with
  | fromOpenAi oe => rw [show step cfg s (.fromOpenAi oe) = processOa cfg s oe from rfl,
      processOa_cutoff]; exact hs
  | fromTwilio te =>
      cases te with
      | startEv sid cid nowMs cpC cpM cpU => simp [isStartEv] at he
      | mediaEv ts payload nowMs =>
          rw [show step cfg s (.fromTwilio (.mediaEv ts payload nowMs)) =
            processMedia cfg s ts payload nowMs from rfl, processMedia_cutoff]
          exact hs
      | markEv => exact hs
      | stopEv nowMs th =>
          show (billUsage { s with openAiOpen := false, cutoffTimer := none }
            nowMs "stop" th).1.cutoffTimer = none
          rw [billUsage_cutoff]
  | socketClose nowMs th =>
      show ({ (billUsage { s with cutoffTimer := none } nowMs "close" th).1 with
        openAiOpen := false }).cutoffTimer = none
      show (billUsage { s with cutoffTimer := none } nowMs "close" th).1.cutoffTimer = none
      rw [billUsage_cutoff]

/-- Both termination signals clear the cutoff timer. -/
theorem step_termination_clears (cfg : FastCfg) (s : ConnState) (e : Ev)
    (he : isTermination e = true) : (step cfg s e).1.cutoffTimer = none := by
  cases e with
  | fromOpenAi oe => simp [isTermination] at he
  | fromTwilio te =>
      cases te with
      | startEv sid cid nowMs cpC cpM cpU => simp [isTermination] at he
      | mediaEv ts payload nowMs => simp [isTermination] at he
      | markEv => simp [isTermination] at he
      | stopEv nowMs th =>
          show (billUsage { s with openAiOpen := false, cutoffTimer := none }
            nowMs "stop" th).1.cutoffTimer = none
          rw [billUsage_cutoff]
  | socketClose nowMs th =>
      show (billUsage { s with cutoffTimer := none } nowMs "close" th).1.cutoffTimer = none
      rw [billUsage_cutoff]

/-- Once the cutoff timer is clear, it stays clear over any events that
contain no telephony `start`. -/
theorem runState_cutoff_none (cfg : FastCfg) :
    ∀ (l : List Ev) (s : ConnState), s.cutoffTimer = none →
      (∀ x ∈ l, isStartEv x = false) → (runState cfg s l).cutoffTimer = none := by
  intro l
  induction l with
  | nil => intro s hs _; exact hs
  | cons e es ih =>
      intro s hs hl
      rw [runState_cons]
      exact ih (step cfg s e).1
        (step_cutoff_preserved_none cfg s e hs (hl e (List.mem_cons_self e es)))
        (fun x hx => hl x (List.mem_cons_of_mem e hx))

/-- `runState` over an appended list. -/
theorem runState_append (cfg : FastCfg) (l1 l2 : List Ev) :
    ∀ s : ConnState, runState cfg s (l1 ++ l2) = runState cfg (runState cfg s l1) l2 := by
  induction l1 with
  | nil => intro s; rfl
  | cons e es ih => intro s; rw [List.cons_append, runState_cons, runState_cons, ih]

/-- C8: processing a termination signal (telephony `stop` or transport
close) cancels the scheduled cutoff action, and it stays cancelled over
any further events that are not a new `start` — so the cutoff can never
fire after the call has ended. -/
theorem cutoff_cancelled_on_termination (cfg : FastCfg) (s : ConnState)
    (pre : List Ev) (e : Ev) (post : List Ev)
    (hterm : isTermination e = true)
    (hpost : ∀ x ∈ post, isStartEv x = false) :
    (runState cfg s (pre ++ e :: post)).cutoffTimer = none := by
  rw [runState_append, runState_cons]
  exact runState_cutoff_none cfg post _
    (step_termination_clears cfg (runState cfg s pre) e hterm) hpost

/-- The default fast barge-in configuration from the environment defaults:
enabled, 160-byte window, 250 ms cooldown, 2 frames, 200 ms start guard,
absolute threshold 3500, ratio 1.2. -/
def stdCfg : FastCfg := ⟨true, 160, 250, 2, 200, ⟨3500, 1⟩, ⟨6, 5⟩⟩

/-- C8 witness: Scenario B — a 60-second budget schedules the cutoff for
t=61000 ms at start (t=1000 ms); a hang-up at t=31000 ms cancels it. -/
theorem cutoff_cancelled_on_termination_witness :
    (runState stdCfg (initState "u" 60 false false)
      [.fromTwilio (.startEv "MZ" "CA" 1000 none none false)]).cutoffTimer =
        some 61000 ∧
    (runState stdCfg (initState "u" 60 false false)
      ([.fromTwilio (.startEv "MZ" "CA" 1000 none none false)] ++
        Ev.fromTwilio (.stopEv 31000 false) :: [])).cutoffTimer = none :=
  ⟨by decide,
   cutoff_cancelled_on_termination stdCfg (initState "u" 60 false false)
     [.fromTwilio (.startEv "MZ" "CA" 1000 none none false)]
     (.fromTwilio (.stopEv 31000 false)) [] (by decide) (by decide)⟩

/-! ## C9: tool-call dispatch -/

/-- C9: a recognized tool name runs its handler and produces a result
object; an unrecognized name `N` produces exactly
`\x7bok: false, error: "unknown_tool: N"\x7d` without terminating the
session (the step leaves every state field except the sizzle toggle
unchanged); and the result is delivered in the shape the call arrived in —
shape A as a direct function result referencing the call id, shape B as a
created conversation item carrying the JSON-encoded output followed by a
new-response request. -/
theorem tool_dispatch_results (cfg : FastCfg) (s : ConnState)
    (name callId : String) (args : Option ToolArgs)
    (h1 : ¬ name = "mark_moment") (h2 : ¬ name = "set_sizzle_mode") :
    (handleFunctionCall s.sizzleMode name callId args .functionEvent).msgs =
      [.functionResult callId (.unknownTool name)] ∧
    (handleFunctionCall s.sizzleMode name callId args .itemEvent).msgs =
      [.itemCreate callId (ToolResult.unknownTool name).toJson, .responseCreate] ∧
    (ToolResult.unknownTool name).toJson =
      "\x7b\"ok\":false,\"error\":\"unknown_tool: " ++ name ++ "\"\x7d" ∧
    (∀ (n2 c2 : String) (a2 : Option ToolArgs) (sh : Shape),
      (step cfg s (.fromOpenAi (.functionCallEv n2 c2 a2 sh))).1 =
        { s with sizzleMode :=
            (handleFunctionCall s.sizzleMode n2 c2 a2 sh).sizzleMode }) ∧
    (∀ (sz : Bool) (a2 : Option ToolArgs),
      (handleFunctionCall sz "mark_moment" callId a2 .functionEvent).msgs =
        [.functionResult callId (.okLabel (labelOf a2))]) ∧
    (∀ (sz : Bool) (a2 : Option ToolArgs), modeOf a2 = "on" →
      (handleFunctionCall sz "set_sizzle_mode" callId a2 .functionEvent).msgs =
        [.sessionUpdateOverlay true, .functionResult callId (.modeSet "on")]) := by
  refine ⟨?_, ?_, rfl, fun n2 c2 a2 sh => rfl, fun sz a2 => ?_, fun sz a2 hm => ?_⟩
  · simp [handleFunctionCall, h1, h2]
  · simp [handleFunctionCall, h1, h2]
  · simp [handleFunctionCall]
  · simp [handleFunctionCall, hm]

/-- C9 witness: Scenario D — the unrecognized tool name "foo" produces the
structured `unknown_tool: foo` error, delivered in both shapes, and the
session state is untouched apart from the sizzle toggle. -/
theorem tool_dispatch_results_witness :
    (handleFunctionCall (initState "u" 0 false false).sizzleMode "foo" "call_1"
        none .functionEvent).msgs =
      [.functionResult "call_1" (.unknownTool "foo")] ∧
    (handleFunctionCall (initState "u" 0 false false).sizzleMode "foo" "call_1"
        none .itemEvent).msgs =
      [.itemCreate "call_1" (ToolResult.unknownTool "foo").toJson, .responseCreate] ∧
    (ToolResult.unknownTool "foo").toJson =
      "\x7b\"ok\":false,\"error\":\"unknown_tool: " ++ "foo" ++ "\"\x7d" ∧
    (∀ (n2 c2 : String) (a2 : Option ToolArgs) (sh : Shape),
      (step stdCfg (initState "u" 0 false false)
          (.fromOpenAi (.functionCallEv n2 c2 a2 sh))).1 =
        { initState "u" 0 false false with sizzleMode :=
            (handleFunctionCall (initState "u" 0 false false).sizzleMode n2 c2 a2
              sh).sizzleMode }) ∧
    (∀ (sz : Bool) (a2 : Option ToolArgs),
      (handleFunctionCall sz "mark_moment" "call_1" a2 .functionEvent).msgs =
        [.functionResult "call_1" (.okLabel (labelOf a2))]) ∧
    (∀ (sz : Bool) (a2 : Option ToolArgs), modeOf a2 = "on" →
      (handleFunctionCall sz "set_sizzle_mode" "call_1" a2 .functionEvent).msgs =
        [.sessionUpdateOverlay true, .functionResult "call_1" (.modeSet "on")]) :=
  tool_dispatch_results stdCfg (initState "u" 0 false false) "foo" "call_1" none
    (by decide) (by decide)

/-! ## C5: the truncate offset -/

/-- C5: on a speech-started transition with a known assistant item and a
positive forwarded-byte counter, the truncate request carries
`audio_end_ms = assistantBytesSent / 8` (8 bytes per millisecond of 8 kHz
μ-law, floored). -/
theorem truncate_offset_formula (s : ConnState) (item : String)
    (hitem : s.lastAssistantItem = some item) (hne : ¬ item = "")
    (hbytes : 0 < s.assistantBytesSent) (hopen : s.openAiOpen = true) :
    OAOut.itemTruncate item 0 (s.assistantBytesSent / 8) ∈
      (handleSpeechStartedEvent s).2 := by
  unfold handleSpeechStartedEvent
  dsimp only
  rw [if_pos hopen]
  have hA : jsTruthyStrOpt s.lastAssistantItem = true := by
    rw [hitem]
    simp [jsTruthyStrOpt, jsTruthyStr, hne]
  rw [if_pos (And.intro hA hbytes)]
  have hmem : OAOut.itemTruncate item 0 (s.assistantBytesSent / 8) ∈
      [OAOut.itemTruncate (s.lastAssistantItem.getD "") 0 (s.assistantBytesSent / 8)] := by
    rw [hitem]
    simp
  exact List.mem_append_right _ hmem

/-- Scenario A: a response begins and five 160-byte audio-delta frames
(800 bytes total) are forwarded. -/
def scenarioATrace : List Ev :=
  [.fromTwilio (.startEv "MZ" "CA" 1000 none none false),
   .fromOpenAi (.responseCreated (some "r1")),
   .fromOpenAi (.audioDelta "r1" (some "itemA") (List.replicate 160 255)),
   .fromOpenAi (.audioDelta "r1" (some "itemA") (List.replicate 160 255)),
   .fromOpenAi (.audioDelta "r1" (some "itemA") (List.replicate 160 255)),
   .fromOpenAi (.audioDelta "r1" (some "itemA") (List.replicate 160 255)),
   .fromOpenAi (.audioDelta "r1" (some "itemA") (List.replicate 160 255))]

set_option maxRecDepth 8000 in
/-- C5 witness: after forwarding 800 bytes the speech-started transition
emits a truncate request with `audio_end_ms = 100`. -/
theorem truncate_offset_formula_witness :
    (runState stdCfg (initState "u" 0 false false)
        scenarioATrace).assistantBytesSent = 800 ∧
    OAOut.itemTruncate "itemA" 0 100 ∈
      (handleSpeechStartedEvent
        (runState stdCfg (initState "u" 0 false false) scenarioATrace)).2 := by
  refine ⟨by decide, ?_⟩
  have h := truncate_offset_formula
    (runState stdCfg (initState "u" 0 false false) scenarioATrace) "itemA"
    (by decide) (by decide) (by decide) (by decide)
  have e : (runState stdCfg (initState "u" 0 false false)
      scenarioATrace).assistantBytesSent / 8 = 100 := by decide
  rw [e] at h
  exact h

/-! ## C3: suppression of late audio deltas -/

/-- Whether an event is an AI-leg `response.created`. -/
def isRespCreatedEv : Ev → Bool
  | .fromOpenAi (.responseCreated _) => true
  | _ => false

/-- Whether an event is an AI-leg `response.done`. -/
def isRespDoneEv : Ev → Bool
  | .fromOpenAi .responseDone => true
  | _ => false

/-- `billUsage` never touches the drop gate. -/
theorem billUsage_drop (s : ConnState) (nowMs : Nat) (r : String) (th : Bool) :
    (billUsage s nowMs r th).1.dropAudioUntilNextResponse =
      s.dropAudioUntilNextResponse := by
  unfold billUsage
  split_ifs <;> rfl

/-- While the drop gate is set, any event that is neither
`response.created` nor `response.done` keeps it set and forwards nothing
to the telephony leg. -/
theorem step_drop_gate (cfg : FastCfg) (s : ConnState) (e : Ev)
    (hd : s.dropAudioUntilNextResponse = true)
    (h1 : isRespCreatedEv e = false) (h2 : isRespDoneEv e = false) :
    (step cfg s e).1.dropAudioUntilNextResponse = true ∧
    (step cfg s e).2.twMsgs = [] := by
  cases e with
  | fromOpenAi oe =>
      cases oe with
      | responseCreated rid => simp [isRespCreatedEv] at h1
      | audioDelta rid itemId payload =>
          have key : (processOa cfg s
              (.audioDelta rid itemId payload)).1.dropAudioUntilNextResponse = true ∧
              (processOa cfg s (.audioDelta rid itemId payload)).2.twMsgs = [] := by
            unfold processOa
            dsimp only
            by_cases hp : payload = []
            · rw [if_pos hp]
              exact ⟨hd, rfl⟩
            · rw [if_neg hp, if_pos (show (s.dropAudioUntilNextResponse || s.userSpeaking)
                = true by simp [hd])]
              exact ⟨hd, rfl⟩
          exact key
      | responseDone => simp [isRespDoneEv] at h2
      | outputItemAdded itemId =>
          have key : (processOa cfg s
              (.outputItemAdded itemId)).1.dropAudioUntilNextResponse = true ∧
              (processOa cfg s (.outputItemAdded itemId)).2.twMsgs = [] := by
            unfold processOa
            dsimp only
            split_ifs <;> exact ⟨hd, rfl⟩
          exact key
      | speechStarted => exact ⟨rfl, rfl⟩
      | speechStopped => exact ⟨hd, rfl⟩
      | functionCallEv n c a sh => exact ⟨hd, rfl⟩
      | otherEvent => exact ⟨hd, rfl⟩
  | fromTwilio te =>
      cases te with
      | startEv sid cid nowMs cpC cpM cpU =>
          refine ⟨?_, rfl⟩
          show (processTw cfg s (.startEv sid cid nowMs cpC cpM cpU)).1.dropAudioUntilNextResponse
            = true
          unfold processTw
          dsimp only
          split_ifs <;> exact hd
      | mediaEv ts payload nowMs =>
          refine ⟨?_, rfl⟩
          show (processMedia cfg s ts payload nowMs).1.dropAudioUntilNextResponse = true
          unfold processMedia handleSpeechStartedEvent
          dsimp only
          split_ifs <;> first | rfl | exact hd
      | markEv => exact ⟨hd, rfl⟩
      | stopEv nowMs th =>
          refine ⟨?_, rfl⟩
          show (billUsage { s with openAiOpen := false, cutoffTimer := none }
            nowMs "stop" th).1.dropAudioUntilNextResponse = true
          rw [billUsage_drop]
          exact hd
  | socketClose nowMs th =>
      refine ⟨?_, rfl⟩
      show (billUsage { s with cutoffTimer := none }
        nowMs "close" th).1.dropAudioUntilNextResponse = true
      rw [billUsage_drop]
      exact hd

/-- C3 (amended): once the drop gate is set (as the speech-started
transition does after issuing the cancellation), every audio delta is
swallowed — nothing at all is forwarded to the telephony leg — until a
`response.created` or `response.done` event clears the gate.  The claim as
frozen is false in that a later `response.created` for a different
response id also clears the gate for stale frames of the cancelled
response (see the counterexample). -/
theorem audio_dropped_until_next_response (cfg : FastCfg) (l : List Ev) :
    ∀ s : ConnState, s.dropAudioUntilNextResponse = true →
      (∀ x ∈ l, isRespCreatedEv x = false ∧ isRespDoneEv x = false) →
      (∀ o ∈ runOuts cfg s l, o.twMsgs = []) ∧
      (runState cfg s l).dropAudioUntilNextResponse = true := by
  induction l with
  | nil =>
      intro s hd _
      exact ⟨fun o ho => absurd ho (by simp [runOuts]), hd⟩
  | cons e es ih =>
      intro s hd hl
      obtain ⟨he1, he2⟩ := hl e (List.mem_cons_self e es)
      obtain ⟨hstep1, hstep2⟩ := step_drop_gate cfg s e hd he1 he2
      obtain ⟨ih1, ih2⟩ := ih (step cfg s e).1 hstep1
        (fun x hx => hl x (List.mem_cons_of_mem e hx))
      refine ⟨?_, by rw [runState_cons]; exact ih2⟩
      intro o ho
      rw [runOuts_cons] at ho
      rcases List.mem_cons.1 ho with h | h
      · rw [h]
        exact hstep2
      · exact ih1 o h

/-- A session that has just suppressed its active response. -/
def droppingState : ConnState :=
  { initState "u" 0 false false with dropAudioUntilNextResponse := true }

/-- C3 witness: with the drop gate set, late deltas (before and after the
user stops speaking) produce no telephony output at all. -/
theorem audio_dropped_until_next_response_witness :
    (∀ o ∈ runOuts stdCfg droppingState
        [.fromOpenAi (.audioDelta "r1" (some "it") [255]),
         .fromOpenAi .speechStopped,
         .fromOpenAi (.audioDelta "r1" none [0])], o.twMsgs = []) ∧
    (runState stdCfg droppingState
        [.fromOpenAi (.audioDelta "r1" (some "it") [255]),
         .fromOpenAi .speechStopped,
         .fromOpenAi (.audioDelta "r1" none [0])]).dropAudioUntilNextResponse = true :=
  audio_dropped_until_next_response stdCfg
    [.fromOpenAi (.audioDelta "r1" (some "it") [255]),
     .fromOpenAi .speechStopped,
     .fromOpenAi (.audioDelta "r1" none [0])]
    droppingState (by decide) (by decide)

/-- A run in which response r1 is cancelled, the user stops speaking, a new
response r2 begins, and then a stale r1 delta arrives. -/
def lateDeltaTrace : List Ev :=
  [.fromTwilio (.startEv "MZ" "CA" 1000 none none false),
   .fromOpenAi (.responseCreated (some "r1")),
   .fromOpenAi (.audioDelta "r1" (some "itemA") [255]),
   .fromOpenAi .speechStarted,
   .fromOpenAi .speechStopped,
   .fromOpenAi (.responseCreated (some "r2")),
   .fromOpenAi (.audioDelta "r1" (some "itemA") [255])]

/-- C3 counterexample: cancellation for r1 is issued at the speech-started
event (index 3), yet the audio delta tagged r1 arriving after the
`response.created` for r2 (index 6) is forwarded to the telephony leg —
the gate is a single flag cleared by the next response, not a
per-response-id suppression. -/
theorem late_delta_forwarded_after_cancel_cex :
    OAOut.responseCancel (some "r1") ∈
      ((runOuts stdCfg (initState "u" 0 false false) lateDeltaTrace).getD 3
        noOut).oaMsgs ∧
    TwOut.mediaOut [255] "r1" ∈
      ((runOuts stdCfg (initState "u" 0 false false) lateDeltaTrace).getD 6
        noOut).twMsgs := by
  decide

/-! ## C6 and C7: the local barge-in detector -/

/-- The local detector fires on a media frame exactly when the outer gate
holds, both the cooldown and startup-guard windows permit, the frame
qualifies on energy, and the incremented debounce counter reaches the
required frame count. -/
theorem processMedia_localBarge_eq (cfg : FastCfg) (s : ConnState) (ts : Nat)
    (payload : List Nat) (nowMs : Nat) :
    (processMedia cfg s ts payload nowMs).2.localBarge =
      (frameEvaluated cfg { s with latestMediaTimestamp := ts } &&
       windowsPermit cfg { s with latestMediaTimestamp := ts } ts nowMs &&
       frameQualifies cfg { s with latestMediaTimestamp := ts } payload &&
       decide (effFrames cfg ≤ s.fastBargeCount + 1)) := by
  unfold processMedia
  dsimp only
  split_ifs with h1 h2 h3 <;> simp_all

/-- The debounce counter after a media frame: reset on firing, incremented
on a qualifying frame, zeroed on a non-qualifying frame — but only when
the outer gate and both windows allow evaluation; otherwise it is left
unchanged. -/
theorem processMedia_count_eq (cfg : FastCfg) (s : ConnState) (ts : Nat)
    (payload : List Nat) (nowMs : Nat) :
    (processMedia cfg s ts payload nowMs).1.fastBargeCount =
      (if (frameEvaluated cfg { s with latestMediaTimestamp := ts } &&
           windowsPermit cfg { s with latestMediaTimestamp := ts } ts nowMs) = true then
        (if frameQualifies cfg { s with latestMediaTimestamp := ts } payload = true then
          (if effFrames cfg ≤ s.fastBargeCount + 1 then 0 else s.fastBargeCount + 1)
         else 0)
       else s.fastBargeCount) := by
  unfold processMedia handleSpeechStartedEvent
  dsimp only
  split_ifs <;> rfl

/-- The average-amplitude fraction always has a positive denominator. -/
theorem muLawAvgAbs_den_pos (p : List Nat) (l : Nat) : 0 < (muLawAvgAbs p l).den := by
  unfold muLawAvgAbs
  dsimp only
  split_ifs <;> dsimp only <;> omega

/-- `Frac.mul` denotes rational multiplication. -/
theorem Frac.mul_toQ (a b : Frac) : (a.mul b).toQ = a.toQ * b.toQ := by
  unfold Frac.mul Frac.toQ
  push_cast
  rw [div_mul_div_comm]

/-- `Frac.maxF` preserves positive denominators. -/
theorem Frac.maxF_den_pos (a b : Frac) (ha : 0 < a.den) (hb : 0 < b.den) :
    0 < (a.maxF b).den := by
  unfold Frac.maxF
  split_ifs <;> assumption

/-- C6: whenever the local barge-in detector fires on an inbound frame,
the decoded average absolute amplitude of that frame strictly exceeds
`max(staticThreshold, echoFloorEma * ratio)` — so it never fires on a
frame at or below the adaptive floor. -/
theorem local_barge_amplitude_floor (cfg : FastCfg) (s : ConnState)
    (ts : Nat) (payload : List Nat) (nowMs : Nat)
    (hthr : 0 < (effAbsThresh cfg).den)
    (hrt : 0 < (effRatioQ cfg).den)
    (hema : 0 < s.assistantOutAvgAbsEma.den)
    (hfire : (processMedia cfg s ts payload nowMs).2.localBarge = true) :
    max (effAbsThresh cfg).toQ
        (s.assistantOutAvgAbsEma.toQ * (effRatioQ cfg).toQ) <
      (muLawAvgAbs payload (min payload.length (effWindow cfg))).toQ := by
  rw [processMedia_localBarge_eq] at hfire
  simp only [Bool.and_eq_true] at hfire
  have hq : frameQualifies cfg { s with latestMediaTimestamp := ts } payload = true :=
    hfire.1.2
  unfold frameQualifies at hq
  dsimp only at hq
  have hmul : 0 < (s.assistantOutAvgAbsEma.mul (effRatioQ cfg)).den := by
    show 0 < s.assistantOutAvgAbsEma.den * (effRatioQ cfg).den
    exact mul_pos hema hrt
  have hmax : 0 < ((effAbsThresh cfg).maxF
      (s.assistantOutAvgAbsEma.mul (effRatioQ cfg))).den :=
    Frac.maxF_den_pos _ _ hthr hmul
  have hin : 0 < (muLawAvgAbs payload (min payload.length (effWindow cfg))).den :=
    muLawAvgAbs_den_pos _ _
  have hlt := (Frac.blt_toQ _ _ hmax hin).1 hq
  rw [Frac.maxF_toQ _ _ hthr hmul, Frac.mul_toQ] at hlt
  exact hlt

/-- A session in which the assistant is streaming and one qualifying frame
has already been counted. -/
def primedState : ConnState :=
  { initState "u" 0 false false with assistantStreaming := true, fastBargeCount := 1 }

/-- C6 witness: the detector fires on a loud frame (average amplitude
253820 against a floor of 3500), and the theorem yields the strict
amplitude bound. -/
theorem local_barge_amplitude_floor_witness :
    (processMedia stdCfg primedState 1000 [0] 10000).2.localBarge = true ∧
    max (effAbsThresh stdCfg).toQ
        (primedState.assistantOutAvgAbsEma.toQ * (effRatioQ stdCfg).toQ) <
      (muLawAvgAbs [0] (min (List.length [0]) (effWindow stdCfg))).toQ :=
  ⟨by decide,
   local_barge_amplitude_floor stdCfg primedState 1000 [0] 10000
     (by decide) (by decide) (by decide) (by decide)⟩

/-- C7 (amended): the detector fires exactly when the outer gate, the
cooldown window, the startup-guard window, the energy test, and the
debounce count all line up; the counter increments on a qualifying frame
and resets on a non-qualifying frame only when the gate and both windows
allow evaluation, and is left unchanged — not reset — by frames arriving
while either window forbids firing. -/
theorem local_barge_fire_characterization (cfg : FastCfg) (s : ConnState)
    (ts : Nat) (payload : List Nat) (nowMs : Nat) :
    ((processMedia cfg s ts payload nowMs).2.localBarge =
      (frameEvaluated cfg { s with latestMediaTimestamp := ts } &&
       windowsPermit cfg { s with latestMediaTimestamp := ts } ts nowMs &&
       frameQualifies cfg { s with latestMediaTimestamp := ts } payload &&
       decide (effFrames cfg ≤ s.fastBargeCount + 1))) ∧
    ((processMedia cfg s ts payload nowMs).1.fastBargeCount =
      (if (frameEvaluated cfg { s with latestMediaTimestamp := ts } &&
           windowsPermit cfg { s with latestMediaTimestamp := ts } ts nowMs) = true then
        (if frameQualifies cfg { s with latestMediaTimestamp := ts } payload = true then
          (if effFrames cfg ≤ s.fastBargeCount + 1 then 0 else s.fastBargeCount + 1)
         else 0)
       else s.fastBargeCount)) :=
  ⟨processMedia_localBarge_eq cfg s ts payload nowMs,
   processMedia_count_eq cfg s ts payload nowMs⟩

/-- The first five events of the debounce counterexample: a response
begins before any media frame (so the start latch is the falsy value 0), a
loud frame is counted while the guard is unmeasurable, then a delta
re-latches the response start at media time 1000. -/
def debounceTracePrefix : List Ev :=
  [.fromTwilio (.startEv "MZ" "CA" 5000 none none false),
   .fromOpenAi (.responseCreated (some "r1")),
   .fromOpenAi (.audioDelta "r1" (some "it1") [255]),
   .fromTwilio (.mediaEv 1000 [0] 6000),
   .fromOpenAi (.audioDelta "r1" (some "it1") [255])]

/-- The full debounce counterexample run: a quiet (non-qualifying) frame
arrives inside the restarted guard window, then a loud frame fires the
detector. -/
def debounceTrace : List Ev :=
  debounceTracePrefix ++
    [.fromTwilio (.mediaEv 1100 [255] 6100),
     .fromTwilio (.mediaEv 1400 [0] 6400)]

/-- C7 counterexample: with a required debounce count of 2, the detector
fires on the seventh event even though the sixth event is an inbound frame
that the detector's outer gate evaluates and that does not qualify — it
arrives while the startup-guard window forbids firing, so it leaves the
debounce counter at 1 instead of resetting it to zero, and the two counted
qualifying frames are not consecutive. -/
theorem debounce_nonreset_fire_cex :
    ((runOuts stdCfg (initState "u" 0 false false) debounceTrace).map
        StepOut.localBarge) =
      [false, false, false, false, false, false, true] ∧
    frameEvaluated stdCfg
      { runState stdCfg (initState "u" 0 false false) debounceTracePrefix with
        latestMediaTimestamp := 1100 } = true ∧
    frameQualifies stdCfg
      { runState stdCfg (initState "u" 0 false false) debounceTracePrefix with
        latestMediaTimestamp := 1100 } [255] = false ∧
    windowsPermit stdCfg
      { runState stdCfg (initState "u" 0 false false) debounceTracePrefix with
        latestMediaTimestamp := 1100 } 1100 6100 = false ∧
    (runState stdCfg (initState "u" 0 false false) debounceTracePrefix).fastBargeCount
      = 1 ∧
    (runState stdCfg (initState "u" 0 false false)
      (debounceTracePrefix ++ [.fromTwilio (.mediaEv 1100 [255] 6100)])).fastBargeCount
      = 1 ∧
    effFrames stdCfg = 2 := by
  decide

end Rabbot
